import Mathlib

/-!
Shallow embedding of the stream-orchestration core of `tap-exacttarget`
(`src/tap_exacttarget/__init__.py`): the selection gate `_is_selected`,
config validation `validate_config`, the selection resolver and run loop
of `do_sync`, the discovery loop of `do_discover`, and the mode dispatch
of `main`.  The endpoint accessor classes live outside the provided
sources, so their `matches_catalog` predicate is modelled from the spec
(identification by stream name) and their `sync` / `generate_catalog`
behaviours are abstract parameters.
-/

namespace TapExacttarget

/-- A JSON scalar value, enough to represent config values, schema
selection flags and state bookmarks. -/
inductive JVal where
  | null : JVal
  | bool : Bool → JVal
  | str : String → JVal
  | num : Int → JVal
deriving DecidableEq, Repr

/-- The selection-relevant keys of a catalog entry's `schema` dict:
`inclusion`, `selected`, `selected-by-default`.  `none` models an absent
key. -/
structure Schema where
  inclusion : Option JVal
  selected : Option JVal
  selectedByDefault : Option JVal
deriving DecidableEq, Repr

/-- The empty dict `{}` used as the default when an entry has no
`schema` key. -/
def emptySchema : Schema := ⟨none, none, none⟩

/-- A catalog entry: its `stream` name (absent keys give `none`) and its
`schema` dict. -/
structure CatalogEntry where
  stream : Option String
  schema : Option Schema
deriving DecidableEq, Repr

/-- Source function `_is_selected` (lines 121-126): selected iff `inclusion ==
'automatic'`, or `inclusion == 'available'` and
`catalog_entry.get('selected', default) is True` where `default =
catalog_entry.get('selected-by-default', False)`. -/
def _is_selected (catalog_entry : Schema) : Bool :=
  let default := catalog_entry.selectedByDefault.getD (JVal.bool false)
  decide (catalog_entry.inclusion = some (JVal.str "automatic")) ||
    (decide (catalog_entry.inclusion = some (JVal.str "available")) &&
      decide (catalog_entry.selected.getD default = JVal.bool true))

/-- A parsed JSON config object, as an association list (first binding
wins on lookup, mirroring dict semantics with unique keys). -/
abbrev ConfigMap := List (String × JVal)

/-- A parsed JSON state object mapping stream identifiers to bookmark
values. -/
abbrev StateMap := List (String × JVal)

/-- Dict access `config.get(key)`: the value bound to `key`, or `none` when the key
is absent. -/
def configGet (config : ConfigMap) (key : String) : Option JVal :=
  (config.find? (fun kv => decide (kv.1 = key))).map (fun kv => kv.2)

/-- The `required_keys` list of `validate_config` (line 33). -/
def required_keys : List String := ["client_id", "client_secret"]

/-- Source function `validate_config` (lines 32-56): collect the required keys that are
missing and those present with a null value; raise (modelled as
`Except.error`) when either list is non-empty. -/
def validate_config (config : ConfigMap) : Except Unit Unit :=
  let missing_keys := required_keys.filter (fun k => (configGet config k).isNone)
  let null_keys := required_keys.filter (fun k =>
    !(configGet config k).isNone && decide (configGet config k = some JVal.null))
  if missing_keys.isEmpty && null_keys.isEmpty then Except.ok () else Except.error ()

/-- The eleven stream-accessor variants of the registry (lines 87-99). -/
inductive StreamVariant where
  | campaign : StreamVariant
  | contentArea : StreamVariant
  | dataExtension : StreamVariant
  | email : StreamVariant
  | event : StreamVariant
  | folder : StreamVariant
  | list : StreamVariant
  | listSend : StreamVariant
  | listSubscriber : StreamVariant
  | send : StreamVariant
  | subscriber : StreamVariant
deriving DecidableEq, Repr

/-- Modelled from the spec: the endpoint modules
(`tap_exacttarget/endpoints/*`) defining each accessor class are not
among the provided sources; per spec section 4.1 each variant
self-identifies a catalog entry "by stream name".  This is each
variant's stream name. -/
def streamName : StreamVariant → String
  | StreamVariant.campaign => "campaign"
  | StreamVariant.contentArea => "content_area"
  | StreamVariant.dataExtension => "data_extension"
  | StreamVariant.email => "email"
  | StreamVariant.event => "event"
  | StreamVariant.folder => "folder"
  | StreamVariant.list => "list"
  | StreamVariant.listSend => "list_send"
  | StreamVariant.listSubscriber => "list_subscriber"
  | StreamVariant.send => "send"
  | StreamVariant.subscriber => "subscriber"

/-- Modelled from the spec: `matches_catalog(catalog_entry)` is a
"static predicate identifying whether a generic catalog entry belongs to
this variant (by stream name)" (spec section 4.1). -/
def matches_catalog (v : StreamVariant) (e : CatalogEntry) : Bool :=
  decide (e.stream = some (streamName v))

/-- The registry `AVAILABLE_STREAM_ACCESSORS` (lines 87-99), in source order. -/
def AVAILABLE_STREAM_ACCESSORS : List StreamVariant :=
  [StreamVariant.campaign, StreamVariant.contentArea,
   StreamVariant.dataExtension, StreamVariant.email, StreamVariant.event,
   StreamVariant.folder, StreamVariant.list, StreamVariant.listSend,
   StreamVariant.listSubscriber, StreamVariant.send,
   StreamVariant.subscriber]

/-- The selection gate applied to an entry in `do_sync` (line 147):
`_is_selected(stream_catalog.get('schema', {}))`. -/
def selectedEntry (e : CatalogEntry) : Bool :=
  _is_selected (e.schema.getD emptySchema)

/-- A selected entry matching the Subscriber variant. -/
def subEntry (e : CatalogEntry) : Bool :=
  selectedEntry e && matches_catalog StreamVariant.subscriber e

/-- A selected entry matching the ListSubscriber variant. -/
def lsubEntry (e : CatalogEntry) : Bool :=
  selectedEntry e && matches_catalog StreamVariant.listSubscriber e

/-- A selected entry that is not the subscriber special case: the
entries that reach the inner registry scan (lines 162-167). -/
def plainEntry (e : CatalogEntry) : Bool :=
  selectedEntry e && !(matches_catalog StreamVariant.subscriber e)

/-- An instantiated stream accessor bound to its catalog entry,
together with the two derived flags the post-pass may set
(lines 176-179). -/
structure BoundAccessor where
  variant : StreamVariant
  entry : CatalogEntry
  replicate_subscriber : Bool
  subscriber_catalog : Option CatalogEntry
deriving DecidableEq, Repr

/-- The mutable locals of the resolver loop in `do_sync`
(lines 138-142). -/
structure ResolveAcc where
  accessors : List BoundAccessor
  subscriber_selected : Bool
  subscriber_catalog : Option CatalogEntry
  list_subscriber_selected : Bool
deriving DecidableEq, Repr

/-- The inner registry scan (lines 162-167): the first variant whose
`matches_catalog` accepts the entry. -/
def firstMatch (e : CatalogEntry) : Option StreamVariant :=
  AVAILABLE_STREAM_ACCESSORS.find? (fun v => matches_catalog v e)

/-- One iteration of the resolver loop of `do_sync` (lines 144-167):
skip unselected entries; record a selected subscriber entry without
instantiating it; record list_subscriber selection; instantiate the
first matching variant. -/
def resolveStep (acc : ResolveAcc) (e : CatalogEntry) : ResolveAcc :=
  if selectedEntry e = false then acc
  else if matches_catalog StreamVariant.subscriber e = true then
    ⟨acc.accessors, true, some e, acc.list_subscriber_selected⟩
  else
    let lss := acc.list_subscriber_selected ||
      matches_catalog StreamVariant.listSubscriber e
    match firstMatch e with
    | some v =>
      ⟨acc.accessors ++ [⟨v, e, false, none⟩], acc.subscriber_selected,
       acc.subscriber_catalog, lss⟩
    | none =>
      ⟨acc.accessors, acc.subscriber_selected, acc.subscriber_catalog, lss⟩

/-- The whole resolver loop, starting from the initial locals
`stream_accessors = []`, `subscriber_selected = False`,
`subscriber_catalog = None`, `list_subscriber_selected = False`. -/
def resolve (catalog : List CatalogEntry) : ResolveAcc :=
  catalog.foldl resolveStep ⟨[], false, none, false⟩

/-- The post-pass wiring applied to each accessor at the top of the run
loop (lines 176-179): a ListSubscriber accessor gets
`replicate_subscriber = True` and the retained subscriber entry when the
subscriber stream was selected. -/
def wireAccessor (r : ResolveAcc) (a : BoundAccessor) : BoundAccessor :=
  if a.variant = StreamVariant.listSubscriber ∧ r.subscriber_selected = true
  then ⟨a.variant, a.entry, true, r.subscriber_catalog⟩
  else a

/-- The execution list after the post-pass wiring. -/
def wiredAccessors (r : ResolveAcc) : List BoundAccessor :=
  r.accessors.map (wireAccessor r)

/-- The abstract behaviour of an accessor's `sync`: given the injected
current state it either completes with an updated state or raises.  The
accessor bodies live outside the provided sources, so the orchestrator
is verified for every such behaviour. -/
def SyncFun : Type := BoundAccessor → StateMap → Except Unit StateMap

/-- Observable events of a run, for stating ordering and persistence
properties. -/
inductive Event where
  | loadCatalog : Event
  | getAuthStub : Event
  | syncInvoked : BoundAccessor → Event
  | logError : Event
  | logFatal : Event
  | logInfo : Event
  | saveState : StateMap → Event
  | printCatalog : List CatalogEntry → Event
deriving DecidableEq, Repr

/-- Outcome of a mode handler: normal return, direct process exit
(`exit(1)`, line 173), or a propagating `RuntimeError`. -/
inductive RunOutcome where
  | ok : List Event → RunOutcome
  | exited : List Event → Nat → RunOutcome
  | raised : List Event → RunOutcome
deriving DecidableEq, Repr

/-- Result of a whole process run: its event trace and exit code. -/
structure RunResult where
  trace : List Event
  exitCode : Nat
deriving DecidableEq, Repr

/-- The run loop of `do_sync` (lines 175-188): inject the current state,
invoke `sync()`, take the accessor's state on success; on an exception
log an error and keep the previous state, moving on to the next
accessor. -/
def runAccessors (syncs : SyncFun) (accs : List BoundAccessor)
    (st : StateMap) : StateMap × List Event :=
  match accs with
  | [] => (st, [])
  | a :: rest =>
    match syncs a st with
    | Except.ok s2 =>
      let r := runAccessors syncs rest s2
      (r.1, Event.syncInvoked a :: r.2)
    | Except.error _ =>
      let r := runAccessors syncs rest st
      (r.1, Event.syncInvoked a :: Event.logError :: r.2)

/-- Source function `do_sync` after config validation (lines 129-189): load the catalog,
obtain the auth stub, resolve the selection, abort with `exit(1)` when
subscriber is selected without list_subscriber, otherwise run every
accessor (with the post-pass wiring) and save the final state once. -/
def do_sync (catalog : List CatalogEntry) (syncs : SyncFun)
    (st : StateMap) : RunOutcome :=
  let r := resolve catalog
  if r.subscriber_selected && !r.list_subscriber_selected then
    RunOutcome.exited [Event.loadCatalog, Event.getAuthStub, Event.logFatal] 1
  else
    let run := runAccessors syncs (wiredAccessors r) st
    RunOutcome.ok ([Event.loadCatalog, Event.getAuthStub] ++
      run.2 ++ [Event.saveState run.1])

/-- Function `do_sync` including the `load_config` validation that precedes it
(line 132): a config failure raises before the catalog is read or the
auth stub is obtained. -/
def do_sync_full (config : ConfigMap) (catalog : List CatalogEntry)
    (syncs : SyncFun) (st : StateMap) : RunOutcome :=
  match validate_config config with
  | Except.error _ => RunOutcome.raised [Event.logFatal]
  | Except.ok _ => do_sync catalog syncs st

/-- The discovery loop of `do_discover` (lines 110-116): starting from
`catalog = []`, append each variant's `generate_catalog()` output in
registry order. -/
def discovered (gen : StreamVariant → List CatalogEntry) :
    List CatalogEntry :=
  AVAILABLE_STREAM_ACCESSORS.foldl (fun cat v => cat ++ gen v) []

/-- Concatenation of the per-variant catalogs in registry order, as the
spec words it ("concatenate results into one catalog document"). -/
def concatAll (ls : List (List CatalogEntry)) : List CatalogEntry :=
  ls.foldr (fun a b => a ++ b) []

/-- Source function `do_discover` (lines 102-118) including config validation:
obtain the auth stub, generate every variant's catalog, print the
combined document.  No state is saved. -/
def do_discover_full (config : ConfigMap)
    (gen : StreamVariant → List CatalogEntry) : RunOutcome :=
  match validate_config config with
  | Except.error _ => RunOutcome.raised [Event.logFatal]
  | Except.ok _ =>
    RunOutcome.ok [Event.getAuthStub, Event.printCatalog (discovered gen)]

/-- The parsed command-line arguments relevant to mode dispatch
(lines 192-212): the parsed config, the parsed state, the parsed catalog
when `--properties` was given, and the `--discover` flag. -/
structure Args where
  config : ConfigMap
  state : StateMap
  properties : Option (List CatalogEntry)
  discover : Bool

/-- Source function `main` (lines 192-224): dispatch on `--discover`, then on
`--properties`; with neither, log an informational message.  A
`RuntimeError` is caught, logged and turns into `exit(1)`; a direct
`exit(1)` keeps its code; otherwise the process exits 0. -/
def mainRun (args : Args) (syncs : SyncFun)
    (gen : StreamVariant → List CatalogEntry) : RunResult :=
  let outcome :=
    if args.discover then do_discover_full args.config gen
    else
      match args.properties with
      | some catalog => do_sync_full args.config catalog syncs args.state
      | none => RunOutcome.ok [Event.logInfo]
  match outcome with
  | RunOutcome.ok evs => ⟨evs, 0⟩
  | RunOutcome.exited evs code => ⟨evs, code⟩
  | RunOutcome.raised evs => ⟨evs ++ [Event.logError, Event.logFatal], 1⟩

/-- The execution list as the spec words it (section 4.2, steps 1-4 and
the output clause): catalog order, minus entries failing the selection
gate and the subscriber special case, each remaining entry instantiating
the first registry variant whose `matches_catalog` accepts it. -/
def resolverSpec (catalog : List CatalogEntry) : List BoundAccessor :=
  (catalog.filter plainEntry).filterMap
    (fun e => (firstMatch e).map (fun v => (⟨v, e, false, none⟩ : BoundAccessor)))

/-- Dict assignment `s[k] = v`: replace the binding when the key is
present, append it otherwise. -/
def upsert (s : StateMap) (k : String) (v : JVal) : StateMap :=
  match s with
  | [] => [(k, v)]
  | kv :: rest => if kv.1 = k then (k, v) :: rest else kv :: upsert rest k v

/-- Dict lookup in a state mapping. -/
def lookupState (s : StateMap) (k : String) : Option JVal :=
  match s with
  | [] => none
  | kv :: rest => if kv.1 = k then some kv.2 else lookupState rest k

/-- Perform a list of key writes, in order, on a state mapping. -/
def writeAll (ws : List (String × JVal)) (s : StateMap) : StateMap :=
  ws.foldl (fun s2 kv => upsert s2 kv.1 kv.2) s

/-- The last value a write list assigns to a key, if any. -/
def lastWrite (ws : List (String × JVal)) (k : String) : Option JVal :=
  match ws with
  | [] => none
  | kv :: rest =>
    match lastWrite rest k with
    | some v => some v
    | none => if kv.1 = k then some kv.2 else none

/-- The sync behaviour of accessors that each write a fixed list of
state keys and complete normally. -/
def syncsOf (writes : BoundAccessor → List (String × JVal)) : SyncFun :=
  fun a s => Except.ok (writeAll (writes a) s)

/-- The accessor of a `syncInvoked` event, for extracting the sequence
of invoked accessors from a trace. -/
def evAccessor : Event → Option BoundAccessor
  | Event.syncInvoked a => some a
  | _ => none

/-- Whether an event is a state save. -/
def isSave : Event → Bool
  | Event.saveState _ => true
  | _ => false

lemma sub_not_lsub (e : CatalogEntry)
    (h : matches_catalog StreamVariant.subscriber e = true) :
    matches_catalog StreamVariant.listSubscriber e = false := by
  unfold matches_catalog streamName at h ⊢
  rw [decide_eq_true_eq] at h
  simp [h]

lemma find?_holds {α : Type} (p : α → Bool) :
    ∀ (l : List α) (a : α), l.find? p = some a → p a = true := by
  intro l
  induction l with
  | nil => intro a h; simp [List.find?] at h
  | cons x xs ih =>
    intro a h
    cases hx : p x with
    | true =>
      rw [List.find?_cons_of_pos _ hx] at h
      cases h
      exact hx
    | false =>
      rw [List.find?_cons_of_neg _ (by simp [hx])] at h
      exact ih a h

lemma firstMatch_matches (e : CatalogEntry) (v : StreamVariant)
    (h : firstMatch e = some v) : matches_catalog v e = true := by
  unfold firstMatch at h
  exact find?_holds (fun v => matches_catalog v e) AVAILABLE_STREAM_ACCESSORS v h

lemma matches_firstMatch (v : StreamVariant) (e : CatalogEntry)
    (h : matches_catalog v e = true) : firstMatch e = some v := by
  unfold matches_catalog at h
  rw [decide_eq_true_eq] at h
  unfold firstMatch matches_catalog
  rw [h]
  cases v <;> decide

lemma resolveStep_subsel (acc : ResolveAcc) (e : CatalogEntry) :
    (resolveStep acc e).subscriber_selected =
      (acc.subscriber_selected || subEntry e) := by
  cases hsel : selectedEntry e <;>
    cases hsub : matches_catalog StreamVariant.subscriber e <;>
      cases hfm : firstMatch e <;>
        simp [resolveStep, subEntry, hsel, hsub, hfm]

lemma resolveStep_lsubsel (acc : ResolveAcc) (e : CatalogEntry) :
    (resolveStep acc e).list_subscriber_selected =
      (acc.list_subscriber_selected || lsubEntry e) := by
  cases hsel : selectedEntry e <;>
    cases hsub : matches_catalog StreamVariant.subscriber e <;>
      cases hfm : firstMatch e <;>
        simp [resolveStep, lsubEntry, hsel, hsub, hfm]
  all_goals simp [sub_not_lsub e hsub]

lemma resolveStep_subcat (acc : ResolveAcc) (e : CatalogEntry) :
    (resolveStep acc e).subscriber_catalog =
      (if subEntry e = true then some e else acc.subscriber_catalog) := by
  cases hsel : selectedEntry e <;>
    cases hsub : matches_catalog StreamVariant.subscriber e <;>
      cases hfm : firstMatch e <;>
        simp [resolveStep, subEntry, hsel, hsub, hfm]

lemma resolveStep_accs (acc : ResolveAcc) (e : CatalogEntry) :
    (resolveStep acc e).accessors = acc.accessors ++
      (if plainEntry e = true then
        ((firstMatch e).map
          (fun v => (⟨v, e, false, none⟩ : BoundAccessor))).toList
      else []) := by
  cases hsel : selectedEntry e <;>
    cases hsub : matches_catalog StreamVariant.subscriber e <;>
      cases hfm : firstMatch e <;>
        simp [resolveStep, plainEntry, hsel, hsub, hfm]

lemma resolve_go_subsel (l : List CatalogEntry) : ∀ acc : ResolveAcc,
    (l.foldl resolveStep acc).subscriber_selected =
      (acc.subscriber_selected || l.any subEntry) := by
  induction l with
  | nil => intro acc; simp
  | cons e l ih =>
    intro acc
    rw [List.foldl_cons, ih, resolveStep_subsel]
    simp [Bool.or_assoc]

lemma resolve_go_lsubsel (l : List CatalogEntry) : ∀ acc : ResolveAcc,
    (l.foldl resolveStep acc).list_subscriber_selected =
      (acc.list_subscriber_selected || l.any lsubEntry) := by
  induction l with
  | nil => intro acc; simp
  | cons e l ih =>
    intro acc
    rw [List.foldl_cons, ih, resolveStep_lsubsel]
    simp [Bool.or_assoc]

lemma resolve_go_subcat (l : List CatalogEntry) : ∀ acc : ResolveAcc,
    (l.foldl resolveStep acc).subscriber_catalog =
      (l.filter subEntry).foldl (fun _ e => some e) acc.subscriber_catalog := by
  induction l with
  | nil => intro acc; simp
  | cons e l ih =>
    intro acc
    rw [List.foldl_cons, ih]
    cases hse : subEntry e <;>
      simp [List.filter_cons, hse, resolveStep_subcat]

lemma resolve_go_accs (l : List CatalogEntry) : ∀ acc : ResolveAcc,
    (l.foldl resolveStep acc).accessors = acc.accessors ++ resolverSpec l := by
  induction l with
  | nil => intro acc; simp [resolverSpec]
  | cons e l ih =>
    intro acc
    rw [List.foldl_cons, ih, resolveStep_accs]
    cases hpe : plainEntry e
    · simp [resolverSpec, List.filter_cons, hpe]
    · cases hfm : firstMatch e <;>
        simp [resolverSpec, List.filter_cons, List.filterMap_cons, hpe, hfm]

lemma resolve_accessors (catalog : List CatalogEntry) :
    (resolve catalog).accessors = resolverSpec catalog := by
  rw [resolve, resolve_go_accs]
  rfl

lemma resolve_subsel (catalog : List CatalogEntry) :
    (resolve catalog).subscriber_selected = catalog.any subEntry := by
  rw [resolve, resolve_go_subsel]
  rfl

lemma resolve_lsubsel (catalog : List CatalogEntry) :
    (resolve catalog).list_subscriber_selected = catalog.any lsubEntry := by
  rw [resolve, resolve_go_lsubsel]
  rfl

lemma resolve_subcat (catalog : List CatalogEntry) :
    (resolve catalog).subscriber_catalog =
      (catalog.filter subEntry).foldl (fun _ e => some e) none := by
  rw [resolve, resolve_go_subcat]

lemma wire_variant (r : ResolveAcc) (a : BoundAccessor) :
    (wireAccessor r a).variant = a.variant := by
  unfold wireAccessor
  split <;> rfl

lemma spec_no_sub (l : List CatalogEntry) :
    ∀ a ∈ resolverSpec l, a.variant ≠ StreamVariant.subscriber := by
  intro a ha
  unfold resolverSpec at ha
  obtain ⟨e, he, hfa⟩ := List.mem_filterMap.mp ha
  obtain ⟨_, hpe⟩ := List.mem_filter.mp he
  cases hfm : firstMatch e with
  | none => rw [hfm] at hfa; simp at hfa
  | some v =>
    rw [hfm] at hfa
    simp at hfa
    have hv := firstMatch_matches e v hfm
    intro hq
    rw [← hfa] at hq
    simp at hq
    rw [hq] at hv
    unfold plainEntry at hpe
    simp [hv] at hpe

lemma plain_false_lsub (e : CatalogEntry) (h : plainEntry e = false) :
    lsubEntry e = false := by
  unfold plainEntry at h
  unfold lsubEntry
  cases hsel : selectedEntry e with
  | false => simp [hsel]
  | true =>
    rw [hsel] at h
    simp at h
    simp [sub_not_lsub e h]

lemma spec_filter_lsub (l : List CatalogEntry) :
    (resolverSpec l).filter
        (fun a => decide (a.variant = StreamVariant.listSubscriber)) =
      (l.filter lsubEntry).map
        (fun e => (⟨StreamVariant.listSubscriber, e, false, none⟩ :
          BoundAccessor)) := by
  induction l with
  | nil => simp [resolverSpec]
  | cons e l ih =>
    cases hpe : plainEntry e with
    | false =>
      simp [resolverSpec, List.filter_cons, hpe, plain_false_lsub e hpe]
      simpa [resolverSpec] using ih
    | true =>
      cases hml : matches_catalog StreamVariant.listSubscriber e with
      | true =>
        have hfm := matches_firstMatch _ _ hml
        have hle : lsubEntry e = true := by
          unfold lsubEntry
          unfold plainEntry at hpe
          simp at hpe
          simp [hpe.1, hml]
        simp [resolverSpec, List.filter_cons, List.filterMap_cons, hpe, hfm, hle]
        simpa [resolverSpec] using ih
      | false =>
        have hle : lsubEntry e = false := by
          unfold lsubEntry
          simp [hml]
        cases hfm : firstMatch e with
        | none =>
          simp [resolverSpec, List.filter_cons, List.filterMap_cons, hpe, hfm, hle]
          simpa [resolverSpec] using ih
        | some v =>
          have hv := firstMatch_matches e v hfm
          have hvne : ¬(v = StreamVariant.listSubscriber) := by
            intro hq
            rw [hq] at hv
            rw [hv] at hml
            exact Bool.true_eq_false.mp hml
          simp [resolverSpec, List.filter_cons, List.filterMap_cons, hpe, hfm,
            hle, hvne]
          simpa [resolverSpec] using ih

lemma spec_entries (l : List CatalogEntry)
    (hm : ∀ e ∈ l, plainEntry e = true → (firstMatch e).isSome = true) :
    (resolverSpec l).map (fun a => a.entry) = l.filter plainEntry := by
  induction l with
  | nil => simp [resolverSpec]
  | cons e l ih =>
    have hml : ∀ x ∈ l, plainEntry x = true → (firstMatch x).isSome = true :=
      fun x hx => hm x (List.mem_cons_of_mem e hx)
    cases hpe : plainEntry e with
    | false =>
      simp [resolverSpec, List.filter_cons, hpe]
      simpa [resolverSpec] using ih hml
    | true =>
      have hsome := hm e (List.mem_cons_self e l) hpe
      obtain ⟨v, hfm⟩ := Option.isSome_iff_exists.mp hsome
      simp [resolverSpec, List.filter_cons, List.filterMap_cons, hpe, hfm]
      simpa [resolverSpec] using ih hml

lemma filter_var_map_wire (r : ResolveAcc) (l : List BoundAccessor) :
    (l.map (wireAccessor r)).filter
        (fun a => decide (a.variant = StreamVariant.listSubscriber)) =
      (l.filter (fun a => decide (a.variant = StreamVariant.listSubscriber))).map
        (wireAccessor r) := by
  induction l with
  | nil => rfl
  | cons a l ih =>
    by_cases h : a.variant = StreamVariant.listSubscriber <;>
      simp [List.filter_cons, wire_variant, h, ih]

lemma runAccessors_invoked (syncs : SyncFun) (accs : List BoundAccessor) :
    ∀ st, ((runAccessors syncs accs st).2).filterMap evAccessor = accs := by
  induction accs with
  | nil => intro st; simp [runAccessors]
  | cons a rest ih =>
    intro st
    cases h : syncs a st <;>
      simp [runAccessors, h, List.filterMap_cons, evAccessor, ih]

lemma runAccessors_save_count (syncs : SyncFun) (accs : List BoundAccessor) :
    ∀ st, ((runAccessors syncs accs st).2).countP isSave = 0 := by
  induction accs with
  | nil => intro st; simp [runAccessors]
  | cons a rest ih =>
    intro st
    cases h : syncs a st <;>
      simp [runAccessors, h, List.countP_cons, isSave, ih]

lemma runAccessors_state_append (syncs : SyncFun) (l1 l2 : List BoundAccessor) :
    ∀ st, (runAccessors syncs (l1 ++ l2) st).1 =
      (runAccessors syncs l2 (runAccessors syncs l1 st).1).1 := by
  induction l1 with
  | nil => intro st; simp [runAccessors]
  | cons a rest ih =>
    intro st
    cases h : syncs a st <;> simp [runAccessors, h, ih]

lemma runAccessors_error_cons (syncs : SyncFun) (a : BoundAccessor)
    (l : List BoundAccessor) (st : StateMap)
    (h : ∀ s, syncs a s = Except.error ()) :
    (runAccessors syncs (a :: l) st).1 = (runAccessors syncs l st).1 := by
  simp [runAccessors, h st]

lemma runAccessors_error_skip (syncs : SyncFun) (l1 : List BoundAccessor)
    (a : BoundAccessor) (l2 : List BoundAccessor) (st : StateMap)
    (h : ∀ s, syncs a s = Except.error ()) :
    (runAccessors syncs (l1 ++ a :: l2) st).1 =
      (runAccessors syncs (l1 ++ l2) st).1 := by
  rw [runAccessors_state_append, runAccessors_state_append,
    runAccessors_error_cons _ _ _ _ h]

lemma lookup_upsert (s : StateMap) (k : String) (v : JVal) (q : String) :
    lookupState (upsert s k v) q =
      (if q = k then some v else lookupState s q) := by
  induction s with
  | nil =>
    by_cases h : q = k
    · simp [upsert, lookupState, h]
    · have h' : ¬ k = q := fun hc => h hc.symm
      simp [upsert, lookupState, h, h']
  | cons kv rest ih =>
    by_cases h1 : kv.1 = k
    · by_cases h2 : q = k
      · simp [upsert, lookupState, h1, h2]
      · have h2' : ¬ k = q := fun hc => h2 hc.symm
        have h1' : ¬ kv.1 = q := by rw [h1]; exact h2'
        simp [upsert, lookupState, h1, h2, h2', h1']
    · by_cases h3 : kv.1 = q
      · have hqk : ¬ q = k := fun hc => h1 (by rw [h3, hc])
        simp [upsert, lookupState, h1, h3, hqk]
      · simp [upsert, lookupState, h1, h3, ih]

lemma lookup_writeAll (ws : List (String × JVal)) :
    ∀ (s : StateMap) (k : String), lookupState (writeAll ws s) k =
      (match lastWrite ws k with
       | some v => some v
       | none => lookupState s k) := by
  induction ws with
  | nil => intro s k; simp [writeAll, lastWrite]
  | cons kv ws ih =>
    intro s k
    have hfold : writeAll (kv :: ws) s = writeAll ws (upsert s kv.1 kv.2) := rfl
    rw [hfold, ih]
    cases hlw : lastWrite ws k with
    | some v => simp [lastWrite, hlw]
    | none =>
      rw [lookup_upsert]
      by_cases h : kv.1 = k <;>
        simp [lastWrite, hlw, h]
      · simp [Ne.symm h]

lemma lastWrite_mem (ws : List (String × JVal)) (k : String) :
    ∀ v : JVal, lastWrite ws k = some v → k ∈ ws.map Prod.fst := by
  induction ws with
  | nil => intro v h; simp [lastWrite] at h
  | cons kv ws ih =>
    intro v h
    unfold lastWrite at h
    cases hlw : lastWrite ws k with
    | some w =>
      exact List.mem_cons_of_mem _ (ih w hlw)
    | none =>
      rw [hlw] at h
      by_cases hk : kv.1 = k
      · rw [← hk]
        exact List.mem_cons_self _ _
      · simp [hk] at h

lemma discovered_go (gen : StreamVariant → List CatalogEntry)
    (l : List StreamVariant) : ∀ init : List CatalogEntry,
    l.foldl (fun cat v => cat ++ gen v) init = init ++ concatAll (l.map gen) := by
  induction l with
  | nil => intro init; simp [concatAll]
  | cons v l ih =>
    intro init
    rw [List.foldl_cons, ih]
    simp [concatAll]

lemma discovered_concat (gen : StreamVariant → List CatalogEntry) :
    discovered gen = concatAll (AVAILABLE_STREAM_ACCESSORS.map gen) := by
  rw [discovered, discovered_go]
  rfl

/-- A well-formed config, used by concrete witnesses. -/
def cfgOK : ConfigMap := [("client_id", JVal.str "x"), ("client_secret", JVal.str "y")]

/-- A selected `subscriber` catalog entry, used by concrete witnesses. -/
def subCat : CatalogEntry :=
  ⟨some "subscriber", some ⟨some (JVal.str "automatic"), none, none⟩⟩

/-- A selected `list_subscriber` catalog entry, used by concrete
witnesses. -/
def lsubCat : CatalogEntry :=
  ⟨some "list_subscriber", some ⟨some (JVal.str "automatic"), none, none⟩⟩

/-- A selected `email` catalog entry, used by concrete witnesses. -/
def emailCat : CatalogEntry :=
  ⟨some "email", some ⟨some (JVal.str "available"), some (JVal.bool true), none⟩⟩

/-- Accessor behaviour that always succeeds without touching state,
used by concrete witnesses. -/
def idSyncs : SyncFun := fun _ s => Except.ok s

/-- Discovery behaviour that produces no catalog entries, used by
concrete witnesses. -/
def emptyGen : StreamVariant → List CatalogEntry := fun _ => []

/-- C4: a catalog entry schema whose `inclusion` field equals
"automatic" passes the selection gate regardless of the `selected` and
`selected-by-default` fields. -/
theorem claim_C4 (s : Schema)
    (h : s.inclusion = some (JVal.str "automatic")) :
    _is_selected s = true := by
  simp [_is_selected, h]

theorem claim_C4_witness :
    _is_selected ⟨some (JVal.str "automatic"), some (JVal.bool false),
      some (JVal.bool false)⟩ = true :=
  claim_C4 _ rfl

/-- C5: for a schema with `inclusion = "available"` and boolean-valued
(or absent) `selected` and `selected-by-default` fields, the selection
gate equals `selected` when present, else `selected-by-default`, which
defaults to false when absent. -/
theorem claim_C5 (osel osbd : Option Bool) :
    _is_selected ⟨some (JVal.str "available"), osel.map JVal.bool,
        osbd.map JVal.bool⟩ =
      osel.getD (osbd.getD false) := by
  cases osel with
  | none => cases osbd with
    | none => rfl
    | some b => cases b <;> rfl
  | some b => cases b <;> cases osbd <;> rfl

/-- C10: with neither `--discover` set nor `--properties` given, `main`
only logs an informational message: no catalog read, no accessor
invocation, no state write, exit code 0. -/
theorem claim_C10 (config : ConfigMap) (st : StateMap) (syncs : SyncFun)
    (gen : StreamVariant → List CatalogEntry) :
    mainRun ⟨config, st, none, false⟩ syncs gen = ⟨[Event.logInfo], 0⟩ ∧
    Event.loadCatalog ∉ (mainRun ⟨config, st, none, false⟩ syncs gen).trace ∧
    (∀ a, Event.syncInvoked a ∉
      (mainRun ⟨config, st, none, false⟩ syncs gen).trace) ∧
    (∀ s, Event.saveState s ∉
      (mainRun ⟨config, st, none, false⟩ syncs gen).trace) := by
  refine ⟨rfl, ?_, ?_, ?_⟩
  · simp [mainRun]
  · intro a; simp [mainRun]
  · intro s; simp [mainRun]

/-- C1: in sync mode, a catalog with a selected subscriber entry and no
selected list_subscriber entry aborts fatally with exit code 1 before
any accessor sync is invoked and without persisting state. -/
theorem claim_C1 (config : ConfigMap) (catalog : List CatalogEntry)
    (syncs : SyncFun) (gen : StreamVariant → List CatalogEntry)
    (st : StateMap)
    (hcfg : validate_config config = Except.ok ())
    (hsub : catalog.any subEntry = true)
    (hlsub : catalog.any lsubEntry = false) :
    mainRun ⟨config, st, some catalog, false⟩ syncs gen =
      ⟨[Event.loadCatalog, Event.getAuthStub, Event.logFatal], 1⟩ ∧
    (∀ a, Event.syncInvoked a ∉
      (mainRun ⟨config, st, some catalog, false⟩ syncs gen).trace) ∧
    (∀ s, Event.saveState s ∉
      (mainRun ⟨config, st, some catalog, false⟩ syncs gen).trace) := by
  have h1 : (resolve catalog).subscriber_selected = true := by
    rw [resolve_subsel, hsub]
  have h2 : (resolve catalog).list_subscriber_selected = false := by
    rw [resolve_lsubsel, hlsub]
  have hm : mainRun ⟨config, st, some catalog, false⟩ syncs gen =
      ⟨[Event.loadCatalog, Event.getAuthStub, Event.logFatal], 1⟩ := by
    simp [mainRun, do_sync_full, hcfg, do_sync, h1, h2]
  refine ⟨hm, ?_, ?_⟩ <;> intro x <;> rw [hm] <;> simp

theorem claim_C1_witness :
    mainRun ⟨cfgOK, [], some [subCat], false⟩ idSyncs emptyGen =
      ⟨[Event.loadCatalog, Event.getAuthStub, Event.logFatal], 1⟩ :=
  (claim_C1 cfgOK [subCat] idSyncs emptyGen [] (by rfl) (by decide)
    (by decide)).1

/-- C2: when no fatal condition holds, every accessor in the execution
list is invoked in order (an exception is caught and logged, later
accessors still run, and the pre-failure state is kept), the final
state is persisted exactly once, as the last event, and the run exits
with code 0. -/
theorem claim_C2 (config : ConfigMap) (catalog : List CatalogEntry)
    (syncs : SyncFun) (gen : StreamVariant → List CatalogEntry)
    (st : StateMap)
    (hcfg : validate_config config = Except.ok ())
    (hok : ((resolve catalog).subscriber_selected &&
      !(resolve catalog).list_subscriber_selected) = false) :
    (mainRun ⟨config, st, some catalog, false⟩ syncs gen).exitCode = 0 ∧
    (mainRun ⟨config, st, some catalog, false⟩ syncs gen).trace =
      [Event.loadCatalog, Event.getAuthStub] ++
        (runAccessors syncs (wiredAccessors (resolve catalog)) st).2 ++
        [Event.saveState
          (runAccessors syncs (wiredAccessors (resolve catalog)) st).1] ∧
    ((mainRun ⟨config, st, some catalog, false⟩ syncs gen).trace).filterMap
        evAccessor = wiredAccessors (resolve catalog) ∧
    ((mainRun ⟨config, st, some catalog, false⟩ syncs gen).trace).countP
        isSave = 1 ∧
    (∀ (l1 : List BoundAccessor) (a : BoundAccessor)
        (l2 : List BoundAccessor) (s0 : StateMap),
      (∀ s, syncs a s = Except.error ()) →
      (runAccessors syncs (l1 ++ a :: l2) s0).1 =
        (runAccessors syncs (l1 ++ l2) s0).1) := by
  have hm : mainRun ⟨config, st, some catalog, false⟩ syncs gen =
      ⟨[Event.loadCatalog, Event.getAuthStub] ++
        (runAccessors syncs (wiredAccessors (resolve catalog)) st).2 ++
        [Event.saveState
          (runAccessors syncs (wiredAccessors (resolve catalog)) st).1],
       0⟩ := by
    simp [mainRun, do_sync_full, hcfg, do_sync, hok]
  refine ⟨by rw [hm], by rw [hm], ?_, ?_, ?_⟩
  · rw [hm]
    simp [List.filterMap_append, evAccessor, runAccessors_invoked]
  · rw [hm]
    simp [List.countP_append, List.countP_cons, isSave,
      runAccessors_save_count]
  · intro l1 a l2 s0 herr
    exact runAccessors_error_skip syncs l1 a l2 s0 herr

theorem claim_C2_witness :
    (mainRun ⟨cfgOK, [], some [emailCat], false⟩ idSyncs emptyGen).exitCode
      = 0 :=
  (claim_C2 cfgOK [emailCat] idSyncs emptyGen [] (by rfl) (by decide)).1

/-- C7: discovery instantiates each registry variant in order,
concatenates their generated catalogs into one document which is
printed, and writes no state; the run exits 0. -/
theorem claim_C7 (config : ConfigMap) (props : Option (List CatalogEntry))
    (st : StateMap) (syncs : SyncFun)
    (gen : StreamVariant → List CatalogEntry)
    (hcfg : validate_config config = Except.ok ()) :
    mainRun ⟨config, st, props, true⟩ syncs gen =
      ⟨[Event.getAuthStub,
        Event.printCatalog (concatAll (AVAILABLE_STREAM_ACCESSORS.map gen))],
       0⟩ ∧
    (∀ s, Event.saveState s ∉
      (mainRun ⟨config, st, props, true⟩ syncs gen).trace) := by
  have hm : mainRun ⟨config, st, props, true⟩ syncs gen =
      ⟨[Event.getAuthStub,
        Event.printCatalog (concatAll (AVAILABLE_STREAM_ACCESSORS.map gen))],
       0⟩ := by
    simp [mainRun, do_discover_full, hcfg, discovered_concat]
  refine ⟨hm, ?_⟩
  intro s
  rw [hm]
  simp

theorem claim_C7_witness :
    mainRun ⟨cfgOK, [], none, true⟩ idSyncs emptyGen =
      ⟨[Event.getAuthStub,
        Event.printCatalog
          (concatAll (AVAILABLE_STREAM_ACCESSORS.map emptyGen))], 0⟩ :=
  (claim_C7 cfgOK none [] idSyncs emptyGen (by rfl)).1

/-- C8: a config missing `client_id` or `client_secret`, or binding one
of them to null, fails validation; both modes then abort with exit code
1 before the auth stub is obtained, before the catalog is read and
before any accessor sync is invoked, and no state is saved. -/
theorem claim_C8 (config : ConfigMap) (st : StateMap)
    (catalog : List CatalogEntry) (props : Option (List CatalogEntry))
    (syncs : SyncFun) (gen : StreamVariant → List CatalogEntry)
    (h : configGet config "client_id" = none ∨
      configGet config "client_id" = some JVal.null ∨
      configGet config "client_secret" = none ∨
      configGet config "client_secret" = some JVal.null) :
    validate_config config = Except.error () ∧
    (mainRun ⟨config, st, some catalog, false⟩ syncs gen).exitCode = 1 ∧
    Event.getAuthStub ∉
      (mainRun ⟨config, st, some catalog, false⟩ syncs gen).trace ∧
    Event.loadCatalog ∉
      (mainRun ⟨config, st, some catalog, false⟩ syncs gen).trace ∧
    (∀ a, Event.syncInvoked a ∉
      (mainRun ⟨config, st, some catalog, false⟩ syncs gen).trace) ∧
    (∀ s, Event.saveState s ∉
      (mainRun ⟨config, st, some catalog, false⟩ syncs gen).trace) ∧
    (mainRun ⟨config, st, props, true⟩ syncs gen).exitCode = 1 ∧
    Event.getAuthStub ∉
      (mainRun ⟨config, st, props, true⟩ syncs gen).trace := by
  have hv : validate_config config = Except.error () := by
    rcases h with h | h | h | h <;>
      simp [validate_config, required_keys, List.filter_cons,
        List.filter_nil, h] <;>
      split <;> simp
  have hms : mainRun ⟨config, st, some catalog, false⟩ syncs gen =
      ⟨[Event.logFatal, Event.logError, Event.logFatal], 1⟩ := by
    simp [mainRun, do_sync_full, hv]
  have hmd : mainRun ⟨config, st, props, true⟩ syncs gen =
      ⟨[Event.logFatal, Event.logError, Event.logFatal], 1⟩ := by
    simp [mainRun, do_discover_full, hv]
  refine ⟨hv, by rw [hms], by rw [hms]; simp, by rw [hms]; simp, ?_, ?_,
    by rw [hmd], by rw [hmd]; simp⟩
  · intro a; rw [hms]; simp
  · intro s; rw [hms]; simp

theorem claim_C8_witness :
    validate_config [("client_secret", JVal.str "y")] = Except.error () ∧
    (mainRun ⟨[("client_secret", JVal.str "y")], [], some [emailCat], false⟩
      idSyncs emptyGen).exitCode = 1 :=
  ⟨(claim_C8 [("client_secret", JVal.str "y")] [] [emailCat] none idSyncs
      emptyGen (Or.inl (by rfl))).1,
   (claim_C8 [("client_secret", JVal.str "y")] [] [emailCat] none idSyncs
      emptyGen (Or.inl (by rfl))).2.1⟩

/-- C3: with exactly one selected subscriber entry and exactly one
selected list_subscriber entry, the execution list contains exactly one
ListSubscriber accessor, wired with `replicate_subscriber = true` and
the retained subscriber entry, and no Subscriber accessor at all. -/
theorem claim_C3 (catalog : List CatalogEntry) (es el : CatalogEntry)
    (hs : catalog.filter subEntry = [es])
    (hl : catalog.filter lsubEntry = [el]) :
    (wiredAccessors (resolve catalog)).filter
        (fun a => decide (a.variant = StreamVariant.listSubscriber)) =
      [⟨StreamVariant.listSubscriber, el, true, some es⟩] ∧
    (∀ a ∈ wiredAccessors (resolve catalog),
      a.variant ≠ StreamVariant.subscriber) := by
  have hsel : (resolve catalog).subscriber_selected = true := by
    rw [resolve_subsel]
    have hes : es ∈ catalog.filter subEntry := by
      rw [hs]
      exact List.mem_singleton_self es
    obtain ⟨hmem, hpe⟩ := List.mem_filter.mp hes
    exact List.any_eq_true.mpr ⟨es, hmem, hpe⟩
  have hcat : (resolve catalog).subscriber_catalog = some es := by
    rw [resolve_subcat, hs]
    rfl
  constructor
  · rw [wiredAccessors, resolve_accessors, filter_var_map_wire,
      spec_filter_lsub, hl]
    simp [wireAccessor, hsel, hcat]
  · intro a ha
    rw [wiredAccessors, resolve_accessors] at ha
    obtain ⟨b, hb, hba⟩ := List.mem_map.mp ha
    rw [← hba, wire_variant]
    exact spec_no_sub catalog b hb

theorem claim_C3_witness :
    (wiredAccessors (resolve [subCat, lsubCat])).filter
        (fun a => decide (a.variant = StreamVariant.listSubscriber)) =
      [⟨StreamVariant.listSubscriber, lsubCat, true, some subCat⟩] :=
  (claim_C3 [subCat, lsubCat] subCat lsubCat (by decide) (by decide)).1

/-- C6: the resolver builds the execution list in catalog order,
dropping entries that fail the selection gate and the subscriber entry,
and binds every remaining entry to the first registry variant whose
`matches_catalog` accepts it; when every such entry has a match, the
bound entries are exactly the retained catalog entries in order. -/
theorem claim_C6 (catalog : List CatalogEntry)
    (hm : ∀ e ∈ catalog, plainEntry e = true →
      (firstMatch e).isSome = true) :
    (resolve catalog).accessors = resolverSpec catalog ∧
    (resolve catalog).accessors.map (fun a => a.entry) =
      catalog.filter plainEntry ∧
    (∀ a ∈ (resolve catalog).accessors,
      firstMatch a.entry = some a.variant) := by
  refine ⟨resolve_accessors catalog, ?_, ?_⟩
  · rw [resolve_accessors]
    exact spec_entries catalog hm
  · intro a ha
    rw [resolve_accessors] at ha
    unfold resolverSpec at ha
    obtain ⟨e, _, hfa⟩ := List.mem_filterMap.mp ha
    cases hfm : firstMatch e with
    | none => rw [hfm] at hfa; simp at hfa
    | some v =>
      rw [hfm] at hfa
      simp at hfa
      rw [← hfa]
      exact hfm

theorem claim_C6_witness :
    (resolve [subCat, lsubCat, emailCat]).accessors.map (fun a => a.entry) =
      List.filter plainEntry [subCat, lsubCat, emailCat] :=
  (claim_C6 [subCat, lsubCat, emailCat] (by decide)).2.1

/-- C9: for accessors that write disjoint sets of state keys, the
orchestrator's state threading is order-independent — running A then B
yields the same mapping (pointwise) as B then A — and the later
accessor never overwrites a key written by the earlier one. -/
theorem claim_C9 (writes : BoundAccessor → List (String × JVal))
    (a b : BoundAccessor) (st : StateMap) (k : String)
    (hdisj : ∀ x ∈ (writes a).map Prod.fst, x ∉ (writes b).map Prod.fst) :
    lookupState ((runAccessors (syncsOf writes) [a, b] st).1) k =
      lookupState ((runAccessors (syncsOf writes) [b, a] st).1) k ∧
    (∀ x v, lastWrite (writes a) x = some v →
      lookupState ((runAccessors (syncsOf writes) [a, b] st).1) x = some v) := by
  have hab : (runAccessors (syncsOf writes) [a, b] st).1 =
      writeAll (writes b) (writeAll (writes a) st) := rfl
  have hba : (runAccessors (syncsOf writes) [b, a] st).1 =
      writeAll (writes a) (writeAll (writes b) st) := rfl
  constructor
  · rw [hab, hba, lookup_writeAll, lookup_writeAll, lookup_writeAll,
      lookup_writeAll]
    cases hA : lastWrite (writes a) k with
    | some v =>
      have hBnone : lastWrite (writes b) k = none := by
        cases hB : lastWrite (writes b) k with
        | none => rfl
        | some w =>
          exact absurd (lastWrite_mem _ _ w hB)
            (hdisj k (lastWrite_mem _ _ v hA))
      simp [hA, hBnone]
    | none =>
      cases hB : lastWrite (writes b) k <;> simp [hA, hB]
  · intro x v hx
    rw [hab, lookup_writeAll, lookup_writeAll]
    have hBnone : lastWrite (writes b) x = none := by
      cases hB : lastWrite (writes b) x with
      | none => rfl
      | some w =>
        exact absurd (lastWrite_mem _ _ w hB)
          (hdisj x (lastWrite_mem _ _ v hx))
    simp [hBnone, hx]

/-- A bound Email accessor, used by the C9 witness. -/
def accA : BoundAccessor := ⟨StreamVariant.email, emailCat, false, none⟩

/-- A bound List accessor, used by the C9 witness. -/
def accB : BoundAccessor :=
  ⟨StreamVariant.list, ⟨some "list", none⟩, false, none⟩

/-- Per-accessor state writes with disjoint keys, used by the C9
witness. -/
def writesW : BoundAccessor → List (String × JVal) := fun a =>
  if a.variant = StreamVariant.email then [("email", JVal.str "b1")]
  else [("list", JVal.str "b2")]

theorem claim_C9_witness :
    lookupState ((runAccessors (syncsOf writesW) [accA, accB] []).1)
        "email" =
      lookupState ((runAccessors (syncsOf writesW) [accB, accA] []).1)
        "email" :=
  (claim_C9 writesW accA accB [] "email" (by decide)).1

end TapExacttarget
